import Mathlib

/-!
Shallow embedding of the rssget feed pipeline (src/main.rs, src/config.rs).

The external collaborators (HTTP client, rss parser, chrono RFC 2822 parsing,
textwrap) are modelled as parameters or abstract inputs; the pipeline itself
(normalization, per-source heap collection and truncation, aggregation,
sorting, rendering) is translated function by function from the source.
Machine timestamps are modelled as Int (the Ord on DateTime is by instant);
ANSI colour styling is dropped (purely cosmetic escape codes around the same
text).
-/

namespace Rssget

/-- Toggles for displaying Item fields (config.rs, ItemConfig); the Rust
Default derive gives all false. -/
structure ItemConfig where
  hide_title : Bool
  hide_link : Bool
  hide_description : Bool
  hide_author : Bool
  hide_pub_date : Bool
  show_enclosure : Bool
deriving DecidableEq

instance : Inhabited ItemConfig := ⟨⟨false, false, false, false, false, false⟩⟩

/-- Per-channel configuration (config.rs, ChanConfig). -/
structure ChanConfig where
  url : String
  max_items : Option Nat
  item_config : Option ItemConfig
deriving DecidableEq

/-- Display ordering selector (config.rs, Order). -/
inductive Order where
  | date
  | channel
deriving DecidableEq

/-- Top-level configuration (config.rs, Config). -/
structure Config where
  display_by : Order
  channels : List ChanConfig
deriving DecidableEq

/-- Config::validate (config.rs): a Config with no channels is unusable. -/
def Config.validate (c : Config) : Except String Unit :=
  if c.channels.isEmpty then Except.error "No channels configured." else Except.ok ()

/-- Media enclosure of a raw feed item (rss crate). -/
structure Enclosure where
  url : String
deriving DecidableEq

/-- Raw feed item as yielded by the external rss parser (the fields
main.rs reads). -/
structure Item where
  title : Option String
  link : Option String
  description : Option String
  author : Option String
  pub_date : Option String
  enclosure : Option Enclosure
deriving DecidableEq

/-- Normalized display record (main.rs, DisplayItem). The parsed
DateTime is modelled as Int. -/
structure DisplayItem where
  chan_title : String
  conf : ItemConfig
  title : Option String
  link : Option String
  description : Option String
  author : Option String
  pub_date : Option Int
  enclosure_url : Option String
deriving DecidableEq

instance : Inhabited DisplayItem :=
  ⟨⟨"", default, none, none, none, none, none, none⟩⟩

/-- DisplayItem::new (main.rs): normalize one raw item. The argument
parse models DateTime::parse_from_rfc2822(..).ok(): some on success,
none on any parse failure. -/
def DisplayItem.new (parse : String → Option Int) (item : Item) (chan_title : String)
    (conf : ItemConfig) : DisplayItem :=
  { chan_title := chan_title
    conf := conf
    title := item.title
    link := item.link
    description := item.description
    author := item.author
    pub_date := item.pub_date.bind (fun d => parse d)
    enclosure_url := item.enclosure.map (fun e => e.url) }

/-- Rust's derived Ord on Option: None is below every Some, Some compares
by value. This is the boolean "is less or equal" on pub_date keys. -/
def optDateLE : Option Int → Option Int → Bool
  | none, _ => true
  | some _, none => false
  | some a, some b => decide (a ≤ b)

/-- Rust's derived Ord on Option as a three-way comparison. -/
def optDateCmp : Option Int → Option Int → Ordering
  | none, none => Ordering.eq
  | none, some _ => Ordering.lt
  | some _, none => Ordering.gt
  | some a, some b => compare a b

/-- impl Ord for DisplayItem (main.rs): compare by pub_date only. -/
def DisplayItem.cmp (a b : DisplayItem) : Ordering :=
  optDateCmp a.pub_date b.pub_date

/-- a is less-or-equal b under DisplayItem's Ord. -/
def DisplayItem.le (a b : DisplayItem) : Bool :=
  optDateLE a.pub_date b.pub_date

/-- Exchange the entries at positions i and j (the net effect of Rust's
Hole-based element moves in BinaryHeap::sift_down). -/
def swapL (l : List DisplayItem) (i j : Nat) : List DisplayItem :=
  (l.set i (l.getD j default)).set j (l.getD i default)

/-- BinaryHeap::sift_down_range(pos, end = l.length) from the Rust standard
library, the hole optimisation rewritten as successive swaps (same final
array). The heap is a max-heap under DisplayItem's Ord; the greater child
at 2*pos+1 or 2*pos+2 is selected, the loop descends while the sifted
element is below it, and a last single child at the final position is
handled after the loop. -/
def siftDownFuel (l : List DisplayItem) (pos : Nat) : Nat → List DisplayItem
  | 0 => l
  | fuel + 1 =>
    if 2 * pos + 1 + 2 ≤ l.length then
      if DisplayItem.le (l.getD (2 * pos + 1) default) (l.getD (2 * pos + 2) default) then
        if DisplayItem.le (l.getD (2 * pos + 2) default) (l.getD pos default) then l
        else siftDownFuel (swapL l pos (2 * pos + 2)) (2 * pos + 2) fuel
      else
        if DisplayItem.le (l.getD (2 * pos + 1) default) (l.getD pos default) then l
        else siftDownFuel (swapL l pos (2 * pos + 1)) (2 * pos + 1) fuel
    else
      if 2 * pos + 1 + 1 = l.length ∧
          DisplayItem.le (l.getD (2 * pos + 1) default) (l.getD pos default) = false
      then swapL l pos (2 * pos + 1)
      else l

/-- sift_down with enough fuel (the hole index strictly increases and is
bounded by the length, so length is enough). -/
def siftDown (l : List DisplayItem) (pos : Nat) : List DisplayItem :=
  siftDownFuel l pos l.length

/-- BinaryHeap::rebuild: sift_down at positions len/2 - 1 down to 0. -/
def rebuildAux (l : List DisplayItem) : Nat → List DisplayItem
  | 0 => l
  | n + 1 => rebuildAux (siftDown l n) n

/-- collect::<BinaryHeap<_>>() followed by .drain() (main.rs fetch body):
FromIterator heapifies the underlying vector, Drain yields it in its raw
array order. -/
def heapify (l : List DisplayItem) : List DisplayItem :=
  rebuildAux l (l.length / 2)

/-- usize::MAX on a 64-bit target (main.rs uses it as the unbounded cap). -/
def usizeMax : Nat := 2 ^ 64 - 1

/-- What the outside world returns for one source: transport failure,
feed-parse failure, or a parsed channel (title plus raw items). -/
inductive FetchOutcome where
  | networkErr (msg : String)
  | parseErr (msg : String)
  | channel (title : String) (items : List Item)
deriving DecidableEq

/-- One Feed Fetcher invocation (the par_iter body in main.rs before error
collection): on success, normalize all items, heap-collect, and drain at
most max_items (usize::MAX when unset). -/
def fetchSource (parse : String → Option Int) (conf : ChanConfig) (out : FetchOutcome) :
    Except String (List DisplayItem) :=
  match out with
  | FetchOutcome.networkErr msg =>
      Except.error ("Could not reach rss: [" ++ msg ++ "]")
  | FetchOutcome.parseErr msg =>
      Except.error ("Could not parse rss response from chan: [" ++ msg ++ "]")
  | FetchOutcome.channel title items =>
      Except.ok ((heapify (items.map
          (fun it => DisplayItem.new parse it title (conf.item_config.getD default)))).take
        (conf.max_items.getD usizeMax))

/-- Fan-in over all sources (main.rs flat_map plus the shared error vec),
modelled sequentially: each source contributes its items or one error. -/
def aggregate (parse : String → Option Int) :
    List (ChanConfig × FetchOutcome) → List DisplayItem × List String
  | [] => ([], [])
  | (c, o) :: rest =>
    let r := aggregate parse rest
    match fetchSource parse c o with
    | Except.ok its => (its ++ r.1, r.2)
    | Except.error e => (r.1, e :: r.2)

/-- The sort key of main.rs sort_by_key: pub_date under Order::Date, the
constant None under Order::Channel. -/
def sortKey (o : Order) (i : DisplayItem) : Option Int :=
  match o with
  | Order.date => i.pub_date
  | Order.channel => none

/-- Comparison on items induced by the selected sort key. -/
def sortLE (o : Order) (a b : DisplayItem) : Bool :=
  optDateLE (sortKey o a) (sortKey o b)

/-- items.sort_by_key(..) (main.rs): Rust's slice sort is stable, modelled
by the stable mergeSort. -/
def sortItems (o : Order) (l : List DisplayItem) : List DisplayItem :=
  l.mergeSort (sortLE o)

/-- DisplayItem::format (main.rs), ANSI styling dropped; fill models
textwrap::fill with the process-wide wrap options. Each write! appends its
piece in source order: optional datetime prefix (same line as the channel
title), the channel title line, then optional title, author, description,
enclosure and link lines. -/
def DisplayItem.format (fill : String → String) (i : DisplayItem) : String :=
  (match i.pub_date with
    | some d => if i.conf.hide_pub_date then "" else "[" ++ toString d ++ "] - "
    | none => "") ++
  (i.chan_title ++ "\n") ++
  ((match i.title with
    | some t => if i.conf.hide_title then "" else fill t ++ "\n"
    | none => "") ++
  (match i.author with
    | some a => if i.conf.hide_author then "" else " - " ++ a ++ "\n"
    | none => "") ++
  (match i.description with
    | some d => if i.conf.hide_description then "" else fill d ++ "\n"
    | none => "") ++
  (match i.enclosure_url with
    | some u => if i.conf.show_enclosure then "[" ++ u ++ "]" ++ "\n" else ""
    | none => "") ++
  (match i.link with
    | some u => if i.conf.hide_link then "" else "[" ++ u ++ "]" ++ "\n"
    | none => ""))

/-- Observable outcome of one run of main() after configuration loading. -/
structure RunOutput where
  exitOk : Bool
  items : List DisplayItem
  stdout : List String
  stderr : List String
  fetches : Nat
deriving DecidableEq

/-- main() (main.rs) after the config file / flag merge: validate, fetch
every source, print the collected errors, handle the empty-result case,
sort, render. outcomes pairs each configured channel with what the world
answered for it. -/
def runMain (parse : String → Option Int) (fill : String → String) (cfg : Config)
    (outcomes : List FetchOutcome) : RunOutput :=
  match cfg.validate with
  | Except.error e => { exitOk := false, items := [], stdout := [], stderr := [e], fetches := 0 }
  | Except.ok _ =>
    let srcs := cfg.channels.zip outcomes
    let r := aggregate parse srcs
    if r.1.isEmpty then
      { exitOk := true, items := [], stdout := [],
        stderr := r.2 ++ ["No RSS items found."], fetches := srcs.length }
    else
      let sorted := sortItems cfg.display_by r.1
      { exitOk := true, items := sorted, stdout := sorted.map (DisplayItem.format fill),
        stderr := r.2, fetches := srcs.length }

/-- Equality of fetch results is decidable (payloads have decidable
equality componentwise). -/
instance {ε α : Type _} [DecidableEq ε] [DecidableEq α] : DecidableEq (Except ε α) :=
  fun x y =>
    match x, y with
    | Except.ok a, Except.ok b =>
      if h : a = b then isTrue (by rw [h]) else isFalse (fun he => h (Except.ok.inj he))
    | Except.error a, Except.error b =>
      if h : a = b then isTrue (by rw [h]) else isFalse (fun he => h (Except.error.inj he))
    | Except.ok _, Except.error _ => isFalse (fun he => Except.noConfusion he)
    | Except.error _, Except.ok _ => isFalse (fun he => Except.noConfusion he)

/-- A concrete stand-in for the RFC 2822 timestamp parser, used on
concrete inputs: the strings "1", "2", "3" stand for parseable date
strings with those instants, everything else fails to parse. -/
def parseTs (s : String) : Option Int :=
  if s = "1" then some 1 else if s = "2" then some 2 else if s = "3" then some 3 else none

/-- A concrete stand-in for textwrap::fill on concrete inputs. -/
def fillId (s : String) : String := s

/-- A raw item whose date string parses to timestamp 1. -/
def itemA : Item := ⟨some "a", none, none, none, some "1", none⟩

/-- A raw item whose date string parses to timestamp 2. -/
def itemB : Item := ⟨some "b", none, none, none, some "2", none⟩

/-- A raw item whose date string fails to parse. -/
def itemBadDate : Item := ⟨some "c", none, none, none, some "not a date", none⟩

/-- A source capped at one item. -/
def chanCapped : ChanConfig := ⟨"u", some 1, none⟩

/-- A source with no cap. -/
def chanFree : ChanConfig := ⟨"u", none, none⟩

/-- A one-source configuration. -/
def cfgOne : Config := ⟨Order.date, [chanFree]⟩

/-- The empty configuration. -/
def cfgNone : Config := ⟨Order.date, []⟩

/-- The display configuration that hides every optional field. -/
def allHidden : ItemConfig := ⟨true, true, true, true, true, false⟩

/-- itemA normalized against channel C under the default display config. -/
def normA : DisplayItem := DisplayItem.new parseTs itemA "C" default

/-- itemB normalized against channel C under the default display config. -/
def normB : DisplayItem := DisplayItem.new parseTs itemB "C" default

/-- Two display items agreeing on pub_date but differing elsewhere. -/
def diX : DisplayItem := ⟨"X", default, some "x", none, none, none, some 5, none⟩

/-- See diX. -/
def diY : DisplayItem := ⟨"Y", default, none, none, none, none, some 5, none⟩

/-- Boolean test for a given pub_date key (used to state sort stability). -/
def pubKeyIs (k : Option Int) (i : DisplayItem) : Bool := decide (i.pub_date = k)

/-- A display item with every optional field populated but every visibility
toggle hiding it. -/
def diHidden : DisplayItem :=
  ⟨"C", allHidden, some "t", some "l", some "d", some "a", some 5, some "e"⟩

/-! Helper lemmas: exchanging two positions of a list is a permutation,
hence the heap construction permutes the normalized records. -/

theorem cons_set_perm {α : Type _} (d : α) :
    ∀ (t : List α) (k : Nat), k < t.length → ∀ (a : α),
      List.Perm (t.getD k d :: t.set k a) (a :: t)
  | b :: s, 0, _, a => by
      simpa using List.Perm.swap a b s
  | b :: s, k + 1, hk, a => by
      have ih := cons_set_perm d s k (by simpa using hk) a
      simp only [List.getD_cons_succ, List.set_cons_succ]
      exact (List.Perm.swap b (s.getD k d) (s.set k a)).trans
        ((ih.cons b).trans (List.Perm.swap a b s))

theorem set_set_perm {α : Type _} [Inhabited α] :
    ∀ (l : List α) (i j : Nat), i < j → j < l.length →
      List.Perm ((l.set i (l.getD j default)).set j (l.getD i default)) l
  | [], _, _, _, hj => by simp at hj
  | x :: t, 0, k + 1, _, hj => by
      simp only [List.getD_cons_succ, List.getD_cons_zero, List.set_cons_zero,
        List.set_cons_succ]
      exact cons_set_perm default t k (by simpa using hj) x
  | x :: t, i + 1, k + 1, hij, hj => by
      simp only [List.getD_cons_succ, List.set_cons_succ]
      exact (set_set_perm t i k (by omega) (by simpa using hj)).cons x

theorem swapL_perm (l : List DisplayItem) (i j : Nat) (hij : i < j) (hj : j < l.length) :
    List.Perm (swapL l i j) l :=
  set_set_perm l i j hij hj

theorem swapL_length (l : List DisplayItem) (i j : Nat) :
    (swapL l i j).length = l.length := by
  simp [swapL]

theorem siftDownFuel_perm :
    ∀ (fuel : Nat) (l : List DisplayItem) (pos : Nat),
      List.Perm (siftDownFuel l pos fuel) l
  | 0, l, _ => List.Perm.refl l
  | fuel + 1, l, pos => by
      rw [siftDownFuel]
      by_cases h1 : 2 * pos + 1 + 2 ≤ l.length
      · rw [if_pos h1]
        by_cases hc : DisplayItem.le (l.getD (2 * pos + 1) default)
            (l.getD (2 * pos + 2) default)
        · rw [if_pos hc]
          by_cases h2 : DisplayItem.le (l.getD (2 * pos + 2) default) (l.getD pos default)
          · rw [if_pos h2]
          · rw [if_neg h2]
            exact (siftDownFuel_perm fuel _ _).trans
              (swapL_perm l pos (2 * pos + 2) (by omega) (by omega))
        · rw [if_neg hc]
          by_cases h2 : DisplayItem.le (l.getD (2 * pos + 1) default) (l.getD pos default)
          · rw [if_pos h2]
          · rw [if_neg h2]
            exact (siftDownFuel_perm fuel _ _).trans
              (swapL_perm l pos (2 * pos + 1) (by omega) (by omega))
      · rw [if_neg h1]
        by_cases h2 : 2 * pos + 1 + 1 = l.length ∧
            DisplayItem.le (l.getD (2 * pos + 1) default) (l.getD pos default) = false
        · rw [if_pos h2]
          exact swapL_perm l pos (2 * pos + 1) (by omega) (by omega)
        · rw [if_neg h2]

theorem siftDown_perm (l : List DisplayItem) (pos : Nat) :
    List.Perm (siftDown l pos) l :=
  siftDownFuel_perm l.length l pos

theorem rebuildAux_perm : ∀ (n : Nat) (l : List DisplayItem),
    List.Perm (rebuildAux l n) l
  | 0, l => List.Perm.refl l
  | n + 1, l => (rebuildAux_perm n (siftDown l n)).trans (siftDown_perm l n)

/-- The heap drain order is a permutation of the normalized input order. -/
theorem heapify_perm (l : List DisplayItem) : List.Perm (heapify l) l :=
  rebuildAux_perm (l.length / 2) l

theorem heapify_length (l : List DisplayItem) : (heapify l).length = l.length :=
  (heapify_perm l).length_eq

/-! Ordering facts about the pub_date key. -/

theorem optDateLE_refl : ∀ (a : Option Int), optDateLE a a = true
  | none => rfl
  | some x => by simp [optDateLE]

theorem optDateLE_trans : ∀ (a b c : Option Int),
    optDateLE a b = true → optDateLE b c = true → optDateLE a c = true
  | none, _, _ => by simp [optDateLE]
  | some _, none, _ => by simp [optDateLE]
  | some _, some _, none => by simp [optDateLE]
  | some x, some y, some z => by
      simp only [optDateLE, decide_eq_true_eq]
      omega

theorem optDateLE_total : ∀ (a b : Option Int), optDateLE a b || optDateLE b a
  | none, _ => by simp [optDateLE]
  | some _, none => by simp [optDateLE]
  | some x, some y => by
      simp only [optDateLE, Bool.or_eq_true, decide_eq_true_eq]
      omega

theorem sortLE_trans (o : Order) (a b c : DisplayItem) :
    sortLE o a b → sortLE o b c → sortLE o a c :=
  fun hab hbc => optDateLE_trans _ _ _ hab hbc

theorem sortLE_total (o : Order) (a b : DisplayItem) :
    sortLE o a b || sortLE o b a :=
  optDateLE_total _ _

/-- Claim C1: a successful fetch of a source with max_items = some m yields
at most m records; with max_items unset it yields a permutation of every
record the parser produced (the whole normalized sequence, given that it
fits in a usize, as any Rust Vec does). -/
theorem c1_fetch_cap (parse : String → Option Int) (conf : ChanConfig) (o : FetchOutcome)
    (r : List DisplayItem) (hr : fetchSource parse conf o = Except.ok r) :
    (∀ m, conf.max_items = some m → r.length ≤ m) ∧
    (conf.max_items = none → ∀ t its, o = FetchOutcome.channel t its →
      its.length ≤ usizeMax →
      List.Perm r (its.map (fun it =>
        DisplayItem.new parse it t (conf.item_config.getD default)))) := by
  cases o with
  | networkErr msg => simp [fetchSource] at hr
  | parseErr msg => simp [fetchSource] at hr
  | channel title items =>
    simp only [fetchSource, Except.ok.injEq] at hr
    subst hr
    constructor
    · intro m hm
      rw [hm]
      exact List.length_take_le m _
    · intro hnone t its heq hlen
      injection heq with h1 h2
      subst h1
      subst h2
      rw [hnone]
      simp only [Option.getD_none]
      rw [List.take_of_length_le]
      · exact heapify_perm _
      · rw [heapify_length, List.length_map]
        exact hlen

/-- Witness for c1_fetch_cap: a capped and an uncapped concrete fetch. -/
theorem c1_fetch_cap_witness :
    ((fetchSource parseTs chanCapped (FetchOutcome.channel "C" [itemA, itemB]) =
        Except.ok [normB]) ∧ [normB].length ≤ 1) ∧
    ((fetchSource parseTs chanFree (FetchOutcome.channel "C" [itemA, itemB]) =
        Except.ok [normB, normA]) ∧
      List.Perm [normB, normA] ([itemA, itemB].map (fun it =>
        DisplayItem.new parseTs it "C" (chanFree.item_config.getD default)))) := by
  refine ⟨⟨by decide, ?_⟩, ⟨by decide, ?_⟩⟩
  · exact (c1_fetch_cap parseTs chanCapped (FetchOutcome.channel "C" [itemA, itemB])
      [normB] (by decide)).1 1 rfl
  · exact (c1_fetch_cap parseTs chanFree (FetchOutcome.channel "C" [itemA, itemB])
      [normB, normA] (by decide)).2 rfl "C" [itemA, itemB] rfl (by decide)

/-- Claim C2 is false on the code: with max_items = 1 and two raw items in
parser order (timestamps 1 then 2), the fetch drains the max-heap and
returns the timestamp-2 record, not the first entry of the normalized
sequence in parser order. -/
theorem c2_counterexample :
    fetchSource parseTs chanCapped (FetchOutcome.channel "C" [itemA, itemB]) ≠
      Except.ok (([itemA, itemB].map (fun it =>
        DisplayItem.new parseTs it "C" (chanCapped.item_config.getD default))).take 1) := by
  decide

/-- Claim C2 (amended): with max_items = some m and more than m raw items,
a successful fetch returns exactly m records, each of them one of the
normalized records; which m of them is decided by the heap drain order,
not by parser position. -/
theorem c2_amended_cap_subset (parse : String → Option Int) (conf : ChanConfig)
    (title : String) (items : List Item) (m : Nat)
    (hm : conf.max_items = some m) (hlen : m < items.length) :
    ∃ r, fetchSource parse conf (FetchOutcome.channel title items) = Except.ok r ∧
      r.length = m ∧
      ∀ x ∈ r, x ∈ items.map (fun it =>
        DisplayItem.new parse it title (conf.item_config.getD default)) := by
  refine ⟨_, rfl, ?_, ?_⟩
  · rw [hm]
    simp only [Option.getD_some]
    rw [List.length_take, heapify_length, List.length_map]
    omega
  · intro x hx
    rw [hm] at hx
    have hx2 : x ∈ heapify (items.map (fun it =>
        DisplayItem.new parse it title (conf.item_config.getD default))) :=
      List.mem_of_mem_take hx
    exact ((heapify_perm _).mem_iff).mp hx2

/-- Witness for c2_amended_cap_subset at the concrete capped source. -/
theorem c2_amended_cap_subset_witness :
    ∃ r, fetchSource parseTs chanCapped (FetchOutcome.channel "C" [itemA, itemB]) =
        Except.ok r ∧
      r.length = 1 ∧
      ∀ x ∈ r, x ∈ [itemA, itemB].map (fun it =>
        DisplayItem.new parseTs it "C" (chanCapped.item_config.getD default)) :=
  c2_amended_cap_subset parseTs chanCapped "C" [itemA, itemB] 1 rfl (by decide)

/-- Claim C4: under Order::Channel the sort key is the constant None, so
the stable sort leaves every merged sequence exactly as it was. -/
theorem c4_channel_sort_noop (l : List DisplayItem) : sortItems Order.channel l = l := by
  show l.mergeSort (sortLE Order.channel) = l
  exact List.mergeSort_of_sorted (List.pairwise_of_forall (fun _ _ => rfl))

/-- Claim C5: normalization maps an absent or unparsable publish-date
string to an absent timestamp, never a default value; DisplayItem.new is
total, so normalization cannot fail. -/
theorem c5_bad_date_is_none (parse : String → Option Int) (item : Item)
    (chan_title : String) (conf : ItemConfig)
    (h : item.pub_date = none ∨ ∃ s, item.pub_date = some s ∧ parse s = none) :
    (DisplayItem.new parse item chan_title conf).pub_date = none := by
  rcases h with h0 | ⟨s, hs, hp⟩
  · simp [DisplayItem.new, h0]
  · simp [DisplayItem.new, hs, hp]

/-- Witness for c5_bad_date_is_none on an unparsable date string. -/
theorem c5_bad_date_is_none_witness :
    (DisplayItem.new parseTs itemBadDate "C" default).pub_date = none :=
  c5_bad_date_is_none parseTs itemBadDate "C" default
    (Or.inr ⟨"not a date", rfl, by decide⟩)

/-- Claim C9: a configuration with zero sources fails validation and makes
the run exit non-zero with no fetch attempted; any configuration with at
least one source passes validation. -/
theorem c9_validate_zero_sources (cfg : Config) :
    (cfg.channels = [] →
      Config.validate cfg = Except.error "No channels configured." ∧
      ∀ parse fill outcomes, runMain parse fill cfg outcomes =
        ⟨false, [], [], ["No channels configured."], 0⟩) ∧
    (cfg.channels ≠ [] → Config.validate cfg = Except.ok ()) := by
  constructor
  · intro h
    have hv : Config.validate cfg = Except.error "No channels configured." := by
      simp [Config.validate, h]
    refine ⟨hv, ?_⟩
    intro parse fill outcomes
    simp [runMain, hv]
  · intro h
    have hne : cfg.channels.isEmpty = false := by
      simpa [List.isEmpty_iff] using h
    simp [Config.validate, hne]

/-- Witness for c9_validate_zero_sources on the empty and a one-source
configuration. -/
theorem c9_validate_zero_sources_witness :
    (Config.validate cfgNone = Except.error "No channels configured." ∧
      runMain parseTs fillId cfgNone [] = ⟨false, [], [], ["No channels configured."], 0⟩) ∧
    Config.validate cfgOne = Except.ok () :=
  ⟨⟨((c9_validate_zero_sources cfgNone).1 rfl).1,
    ((c9_validate_zero_sources cfgNone).1 rfl).2 parseTs fillId []⟩,
    (c9_validate_zero_sources cfgOne).2 (by simp [cfgOne])⟩

/-- Claim C10: DisplayItem's Ord looks only at pub_date, so items equal on
pub_date compare Equal even when structurally different, and the ordering
is not consistent with structural equality. -/
theorem c10_cmp_ignores_other_fields :
    (∀ a b : DisplayItem, a.pub_date = b.pub_date → DisplayItem.cmp a b = Ordering.eq) ∧
    (∃ a b : DisplayItem, DisplayItem.cmp a b = Ordering.eq ∧ a ≠ b) := by
  constructor
  · intro a b h
    rw [DisplayItem.cmp, h]
    cases hb : b.pub_date with
    | none => simp [optDateCmp]
    | some x =>
      show compareOfLessAndEq x x = Ordering.eq
      simp [compareOfLessAndEq]
  · exact ⟨diX, diY, by decide, by decide⟩

/-- Witness for c10_cmp_ignores_other_fields on two distinct items with the
same pub_date. -/
theorem c10_cmp_ignores_other_fields_witness :
    DisplayItem.cmp diX diY = Ordering.eq :=
  (c10_cmp_ignores_other_fields).1 diX diY rfl

/-- Claim C3: Order::Date sorting is a stable sort by pub_date: the result
is a permutation of the input, pairwise ordered by the optional-timestamp
key, items with any fixed key keep their relative input order, and every
absent-timestamp item is placed before every present-timestamp item. -/
theorem c3_date_sort_stable (l : List DisplayItem) :
    List.Perm (sortItems Order.date l) l ∧
    (sortItems Order.date l).Pairwise (fun a b => optDateLE a.pub_date b.pub_date = true) ∧
    (∀ k : Option Int,
      (sortItems Order.date l).filter (pubKeyIs k) = l.filter (pubKeyIs k)) ∧
    (sortItems Order.date l).Pairwise (fun a b => b.pub_date = none → a.pub_date = none) := by
  have hperm : List.Perm (sortItems Order.date l) l := List.mergeSort_perm l _
  have hsorted : (sortItems Order.date l).Pairwise
      (fun a b => sortLE Order.date a b = true) :=
    List.sorted_mergeSort (sortLE_trans Order.date) (sortLE_total Order.date) l
  refine ⟨hperm, hsorted.imp (fun h => h), ?_, ?_⟩
  · intro k
    have hself : (l.filter (pubKeyIs k)).filter (pubKeyIs k) = l.filter (pubKeyIs k) := by
      rw [List.filter_eq_self]
      intro a ha
      exact (List.mem_filter.mp ha).2
    have hsub : List.Sublist (l.filter (pubKeyIs k))
        (List.mergeSort l (sortLE Order.date)) := by
      apply List.sublist_mergeSort (sortLE_trans Order.date) (sortLE_total Order.date)
      · apply List.pairwise_of_forall_mem_list
        intro a ha b hb
        have hak : a.pub_date = k := by
          simpa [pubKeyIs] using (List.mem_filter.mp ha).2
        have hbk : b.pub_date = k := by
          simpa [pubKeyIs] using (List.mem_filter.mp hb).2
        show optDateLE a.pub_date b.pub_date = true
        rw [hak, hbk]
        exact optDateLE_refl k
      · exact List.filter_sublist l
    have hsub2 := List.Sublist.filter (pubKeyIs k) hsub
    rw [hself] at hsub2
    have hlen : ((List.mergeSort l (sortLE Order.date)).filter (pubKeyIs k)).length =
        (l.filter (pubKeyIs k)).length :=
      ((List.mergeSort_perm l (sortLE Order.date)).filter (pubKeyIs k)).length_eq
    exact (hsub2.eq_of_length hlen.symm).symm
  · apply hsorted.imp
    intro a b h hb
    cases ha : a.pub_date with
    | none => rfl
    | some x =>
      exfalso
      have hle : optDateLE a.pub_date b.pub_date = true := h
      rw [ha, hb] at hle
      simp [optDateLE] at hle

/-- aggregate on a cons, written out (definitional). -/
theorem aggregate_cons (parse : String → Option Int) (c : ChanConfig) (o : FetchOutcome)
    (rest : List (ChanConfig × FetchOutcome)) :
    aggregate parse ((c, o) :: rest) =
      match fetchSource parse c o with
      | Except.ok its => (its ++ (aggregate parse rest).1, (aggregate parse rest).2)
      | Except.error e => ((aggregate parse rest).1, e :: (aggregate parse rest).2) :=
  rfl

/-- Claim C6: each source contributes one error string (and no items) or
its items (and no error string), so per run the number of error strings
plus the number of successful sources is the number of sources. -/
theorem c6_errors_plus_successes (parse : String → Option Int)
    (srcs : List (ChanConfig × FetchOutcome)) :
    (aggregate parse srcs).2.length +
      srcs.countP (fun p => match fetchSource parse p.1 p.2 with
        | Except.ok _ => true
        | Except.error _ => false) = srcs.length := by
  induction srcs with
  | nil => rfl
  | cons hd tl ih =>
    obtain ⟨c, o⟩ := hd
    cases hf : fetchSource parse c o with
    | ok its =>
      simp only [aggregate_cons, hf, List.countP_cons, List.length_cons, if_pos]
      omega
    | error e =>
      simp only [aggregate_cons, hf, List.countP_cons, List.length_cons]
      simp
      omega

/-- If every source fails (or yields no items), the aggregate item list is
empty. -/
theorem aggregate_items_nil (parse : String → Option Int) :
    ∀ (srcs : List (ChanConfig × FetchOutcome)),
      (∀ p ∈ srcs, ∀ its, fetchSource parse p.1 p.2 = Except.ok its → its = []) →
      (aggregate parse srcs).1 = []
  | [], _ => rfl
  | (c, o) :: rest, h => by
    have hrest := aggregate_items_nil parse rest
      (fun p hp => h p (List.mem_cons_of_mem _ hp))
    cases hf : fetchSource parse c o with
    | ok its =>
      have hits : its = [] := h (c, o) (List.mem_cons_self _ _) its hf
      simp [aggregate_cons, hf, hits, hrest]
    | error e =>
      simp [aggregate_cons, hf, hrest]

/-- Claim C7: when every source fails or returns no item, the run has zero
items, prints nothing on stdout, ends its error channel with the "no
items" message, and exits successfully. -/
theorem c7_all_fail_is_ok (parse : String → Option Int) (fill : String → String)
    (cfg : Config) (outcomes : List FetchOutcome) (hne : cfg.channels ≠ [])
    (hall : ∀ p ∈ cfg.channels.zip outcomes, ∀ its,
      fetchSource parse p.1 p.2 = Except.ok its → its = []) :
    (runMain parse fill cfg outcomes).items = [] ∧
    (runMain parse fill cfg outcomes).stdout = [] ∧
    (runMain parse fill cfg outcomes).stderr.getLast? = some "No RSS items found." ∧
    (runMain parse fill cfg outcomes).exitOk = true := by
  have hv : Config.validate cfg = Except.ok () := by
    have hne2 : cfg.channels.isEmpty = false := by
      simpa [List.isEmpty_iff] using hne
    simp [Config.validate, hne2]
  have hnil : (aggregate parse (cfg.channels.zip outcomes)).1 = [] :=
    aggregate_items_nil parse _ hall
  simp [runMain, hv, hnil, List.getLast?_concat]

/-- Witness for c7_all_fail_is_ok: one source, network failure. -/
theorem c7_all_fail_is_ok_witness :
    (runMain parseTs fillId cfgOne [FetchOutcome.networkErr "down"]).items = [] ∧
    (runMain parseTs fillId cfgOne [FetchOutcome.networkErr "down"]).stdout = [] ∧
    (runMain parseTs fillId cfgOne [FetchOutcome.networkErr "down"]).stderr.getLast? =
      some "No RSS items found." ∧
    (runMain parseTs fillId cfgOne [FetchOutcome.networkErr "down"]).exitOk = true := by
  apply c7_all_fail_is_ok parseTs fillId cfgOne [FetchOutcome.networkErr "down"]
  · simp [cfgOne]
  · intro p hp its hf
    have hp2 : p = (chanFree, FetchOutcome.networkErr "down") := by
      simpa [cfgOne] using hp
    rw [hp2] at hf
    simp [fetchSource] at hf

/-- Claim C8: with every visibility toggle hiding its field, format yields
exactly the channel-title line; and for any item under any configuration
the output contains the channel title line. -/
theorem c8_all_hidden_chan_line (fill : String → String) (i : DisplayItem)
    (h : i.conf = allHidden) :
    DisplayItem.format fill i = i.chan_title ++ "\n" ∧
    ∀ j : DisplayItem, ∃ p r,
      DisplayItem.format fill j = p ++ (j.chan_title ++ "\n") ++ r := by
  constructor
  · obtain ⟨ct, conf, t, li, de, au, pd, en⟩ := i
    simp only at h
    subst h
    cases t <;> cases li <;> cases de <;> cases au <;> cases pd <;> cases en <;>
      simp [DisplayItem.format, allHidden]
  · intro j
    exact ⟨_, _, rfl⟩

/-- Witness for c8_all_hidden_chan_line on a fully populated, fully hidden
item. -/
theorem c8_all_hidden_chan_line_witness :
    DisplayItem.format fillId diHidden = diHidden.chan_title ++ "\n" :=
  (c8_all_hidden_chan_line fillId diHidden rfl).1

end Rssget
